import Mathlib

/-!
Verification of the math-compiler front end (lexer, Pratt parser, AST arena).

The definitions below are a shallow embedding of the C++ sources:
  * `Tokenize` embeds the state-machine lexer of the lexer implementation file
    (`State`, the per-character loop, commit/begin helpers, the `--i` pushback,
    `std::stoi` / `std::stoll` / `std::stod` commits);
  * the `parse*` functions embed `Parser::parse`, `Parser::parseExpression` and
    the helper routines of parser.cpp, together with the lookup tables of
    parser.h and the arena `add*` methods of AST.h.

Modelling conventions:
  * characters are their byte values (`Nat`); `isdigit`/`isspace`/`isalnum`
    follow the C locale on ASCII;
  * C++ exceptions thrown by the parser (`std::runtime_error` from `expect`,
    `parsePrefix`, `parseCommand`, `parseOperatorName`) are the `.err` outcome;
    undefined behaviour and unexpected library exceptions (vector indexing out
    of bounds, `std::get` on the wrong variant alternative, division by zero in
    `addRational`, `std::stoi`/`std::stoll` out-of-range) are the `.crash`
    outcome;
  * `double` payloads are never computed with: a float-valued token or `Real`
    node carries the source lexeme that `std::stod` would parse.  (`std::stod`
    itself can throw for out-of-range exponents; no claim depends on a float
    payload, and that throw is not modelled.)
  * recursion in the parser is not structurally terminating (and in fact does
    not terminate on some inputs), so every potentially recursive function
    takes a fuel argument and returns the `.oof` (out of fuel) outcome at 0;
    each callee and each loop iteration gets one unit less.  `i64` payloads are
    modelled as `Int`: the only arithmetic the parser performs on them is the
    exact negation in `parseFraction`, which stays in range for every token the
    lexer can produce.
-/

namespace MathCompiler

/-! ### Lexer data model (lexer.h) -/

inductive TokenType where
  | Number
  | Identifier
  | Command
  | LBrace | RBrace
  | LParenthesis | RParenthesis
  | LBracket | RBracket
  | Comma
  | Plus | Minus | Star | Slash
  | Caret | Underscore
  | Equals
  | End
deriving DecidableEq, Repr

/-- The `std::variant<double, i64>` held by a `Number` payload.  A double is
represented by the lexeme `std::stod` was given (no claim reads a double). -/
inductive NumValue where
  | floatVal (rep : String)
  | intVal (v : Int)
deriving DecidableEq, Repr

/-- `struct Number` of lookupstuff.h. -/
structure Number where
  value : NumValue
  isInt : Bool
deriving DecidableEq, Repr

/-- `struct Token` of lexer.h. -/
structure Token where
  type : TokenType
  lexeme : String
  pos : Nat
  number : Option Number := none
deriving DecidableEq, Repr

/-- `Token::is`. -/
def Token.is (t : Token) (ty : TokenType) : Bool := t.type == ty

/-- `Token::isInt`: `number.has_value() && number->isInt`. -/
def Token.isInt (t : Token) : Bool :=
  match t.number with
  | some n => n.isInt
  | none => false

/-! ### Character classification (C locale, ASCII bytes) -/

def isdigitC (c : Nat) : Bool := decide (48 ≤ c ∧ c ≤ 57)

def isspaceC (c : Nat) : Bool := decide (c = 32 ∨ (9 ≤ c ∧ c ≤ 13))

def isalphaC (c : Nat) : Bool := decide ((65 ≤ c ∧ c ≤ 90) ∨ (97 ≤ c ∧ c ≤ 122))

def isalnumC (c : Nat) : Bool := isdigitC c || isalphaC c

/-- Value of a digit run (how `std::stoi`/`std::stoll` read an all-digit
buffer). -/
def digitsVal (ds : List Char) : Nat :=
  ds.foldl (fun a ch => a * 10 + (ch.toNat - 48)) 0

/-- `std::stoll` applied to the buffer of the `NumberFrac` state: it converts
the longest leading digit run and throws `std::invalid_argument` when there is
none (buffer `".5"`), `std::out_of_range` past `2^63 - 1`.  `none` stands for a
throw. -/
def stollPre (s : String) : Option Nat :=
  let ds := s.data.takeWhile (fun ch => isdigitC ch.toNat)
  if ds.isEmpty then none
  else if 9223372036854775807 < digitsVal ds then none
  else some (digitsVal ds)

/-! ### The lexer state machine (`enum class State` and `Tokenize`) -/

inductive State where
  | Start
  | Number
  | NumberFracMark
  | NumberFrac
  | NumberExpMark
  | NumberExpSign
  | NumberExp
  | Identifier
  | Command
deriving DecidableEq, Repr

inductive LexResult where
  | ok (tokens : List Token)
  | fail
  | crash
  | oof
deriving DecidableEq, Repr

/-- The `for (i = 0; i <= input.size(); i++)` loop of `Tokenize`.  `i`,
the current `State`, the lexeme `buffer`, `startPos` and the committed
`tokens` are the loop's mutable state.  A branch that does `--i` before the
loop's `i++` recurses with the same `i`; all others recurse with `i + 1`.
`fuel` only bounds the number of iterations (the C++ loop has no such bound;
every concrete run below is given ample fuel). -/
def lexLoop (input : List Nat) :
    Nat → Nat → State → String → Nat → List Token → LexResult
  | 0, _, _, _, _, _ => .oof
  | fuel + 1, i, st, buffer, startPos, tokens =>
    let n := input.length
    if i ≤ n then
      -- unsigned char c = (i < input.size()) ? input[i] : '\0';
      let c := (input.get? i).getD 0
      match st with
      | .Start =>
        if c = 0 then
          -- End sentinel token at the end + 1, return true
          .ok (tokens ++ [{ type := .End, lexeme := "", pos := n }])
        else if isspaceC c then
          lexLoop input fuel (i + 1) .Start buffer startPos tokens
        else if isdigitC c then
          lexLoop input fuel (i + 1) .Number (String.push "" (Char.ofNat c)) i tokens
        else if c = 46 then  -- '.'
          lexLoop input fuel (i + 1) .NumberFracMark "." i tokens
        else if c = 92 then  -- backslash
          lexLoop input fuel (i + 1) .Command "\\" i tokens
        else if isalnumC c then
          lexLoop input fuel (i + 1) .Identifier (String.push "" (Char.ofNat c)) i tokens
        else if c = 123 then
          lexLoop input fuel (i + 1) .Start buffer startPos
            (tokens ++ [{ type := .LBrace, lexeme := "\x7b", pos := i }])
        else if c = 125 then
          lexLoop input fuel (i + 1) .Start buffer startPos
            (tokens ++ [{ type := .RBrace, lexeme := "\x7d", pos := i }])
        else if c = 40 then
          lexLoop input fuel (i + 1) .Start buffer startPos
            (tokens ++ [{ type := .LParenthesis, lexeme := "(", pos := i }])
        else if c = 41 then
          lexLoop input fuel (i + 1) .Start buffer startPos
            (tokens ++ [{ type := .RParenthesis, lexeme := ")", pos := i }])
        else if c = 91 then
          lexLoop input fuel (i + 1) .Start buffer startPos
            (tokens ++ [{ type := .LBracket, lexeme := "[", pos := i }])
        else if c = 93 then
          lexLoop input fuel (i + 1) .Start buffer startPos
            (tokens ++ [{ type := .RBracket, lexeme := "]", pos := i }])
        else if c = 44 then
          lexLoop input fuel (i + 1) .Start buffer startPos
            (tokens ++ [{ type := .Comma, lexeme := ",", pos := i }])
        else if c = 43 then
          lexLoop input fuel (i + 1) .Start buffer startPos
            (tokens ++ [{ type := .Plus, lexeme := "+", pos := i }])
        else if c = 45 then
          lexLoop input fuel (i + 1) .Start buffer startPos
            (tokens ++ [{ type := .Minus, lexeme := "-", pos := i }])
        else if c = 42 then
          lexLoop input fuel (i + 1) .Start buffer startPos
            (tokens ++ [{ type := .Star, lexeme := "*", pos := i }])
        else if c = 47 then
          lexLoop input fuel (i + 1) .Start buffer startPos
            (tokens ++ [{ type := .Slash, lexeme := "/", pos := i }])
        else if c = 94 then
          lexLoop input fuel (i + 1) .Start buffer startPos
            (tokens ++ [{ type := .Caret, lexeme := "^", pos := i }])
        else if c = 95 then
          lexLoop input fuel (i + 1) .Start buffer startPos
            (tokens ++ [{ type := .Underscore, lexeme := "_", pos := i }])
        else if c = 61 then
          lexLoop input fuel (i + 1) .Start buffer startPos
            (tokens ++ [{ type := .Equals, lexeme := "=", pos := i }])
        else
          .fail
      | .Number =>
        if isdigitC c then
          lexLoop input fuel (i + 1) .Number (buffer.push (Char.ofNat c)) startPos tokens
        else if c = 46 then
          lexLoop input fuel (i + 1) .NumberFracMark (buffer.push '.') startPos tokens
        else if c = 101 ∨ c = 69 then  -- 'e' / 'E'
          lexLoop input fuel (i + 1) .NumberExpMark (buffer.push (Char.ofNat c)) startPos tokens
        else
          -- Number num{ std::stoi(buffer), true }; stoi throws std::out_of_range
          -- beyond INT_MAX (int is 32-bit)
          let v := digitsVal buffer.data
          if 2147483647 < v then .crash
          else
            lexLoop input fuel (if c = 0 then i + 1 else i) .Start buffer startPos
              (tokens ++ [{ type := .Number, lexeme := buffer, pos := i,
                            number := some { value := .intVal v, isInt := true } }])
      | .NumberFracMark =>
        if isdigitC c then
          lexLoop input fuel (i + 1) .NumberFrac (buffer.push (Char.ofNat c)) startPos tokens
        else
          .fail
      | .NumberFrac =>
        if isdigitC c then
          lexLoop input fuel (i + 1) .NumberFrac (buffer.push (Char.ofNat c)) startPos tokens
        else
          -- Number num{ static_cast<i64>(std::stoll(buffer)), true };
          match stollPre buffer with
          | none => .crash
          | some v =>
            lexLoop input fuel (if c = 0 then i + 1 else i) .Start buffer startPos
              (tokens ++ [{ type := .Number, lexeme := buffer, pos := i,
                            number := some { value := .intVal (v : Int), isInt := true } }])
      | .NumberExpMark =>
        if isdigitC c then
          lexLoop input fuel (i + 1) .NumberExp (buffer.push (Char.ofNat c)) startPos tokens
        else if c = 45 then  -- '-'
          lexLoop input fuel (i + 1) .NumberExpSign (buffer.push '-') startPos tokens
        else
          .fail
      | .NumberExpSign =>
        if isdigitC c then
          lexLoop input fuel (i + 1) .NumberExp (buffer.push (Char.ofNat c)) startPos tokens
        else
          .fail
      | .NumberExp =>
        if isdigitC c then
          lexLoop input fuel (i + 1) .NumberExp (buffer.push (Char.ofNat c)) startPos tokens
        else
          -- Number num{ std::stod(buffer), false };
          lexLoop input fuel (if c = 0 then i + 1 else i) .Start buffer startPos
            (tokens ++ [{ type := .Number, lexeme := buffer, pos := i,
                          number := some { value := .floatVal buffer, isInt := false } }])
      | .Identifier =>
        if isalnumC c then
          lexLoop input fuel (i + 1) .Identifier (buffer.push (Char.ofNat c)) startPos tokens
        else
          lexLoop input fuel (if c = 0 then i + 1 else i) .Start buffer startPos
            (tokens ++ [{ type := .Identifier, lexeme := buffer, pos := startPos }])
      | .Command =>
        if isalnumC c then
          lexLoop input fuel (i + 1) .Command (buffer.push (Char.ofNat c)) startPos tokens
        else
          lexLoop input fuel (if c = 0 then i + 1 else i) .Start buffer startPos
            (tokens ++ [{ type := .Command, lexeme := buffer, pos := startPos }])
    else
      -- after the loop, back to the start means it all got handled
      if st = .Start then .ok tokens else .fail

/-- `bool Tokenize(const std::string& input, std::vector<Token>& tokens)`.
The input is taken as its byte values (all inputs of interest are ASCII). -/
def Tokenize (input : String) (fuel : Nat) : LexResult :=
  lexLoop (input.data.map Char.toNat) fuel 0 .Start "" 0 []

/-! ### AST data model (AST.h) -/

inductive ConstantKind where
  | PI | E | I
deriving DecidableEq, Repr

inductive BinaryOpKind where
  | Add | Subtract | Multiply | Divide | Power | Equals
deriving DecidableEq, Repr

inductive UnaryOpKind where
  | Negate | Factorial | Percent
deriving DecidableEq, Repr

inductive FunctionKind where
  | Sine | Cosine | Tangent | Atan2
  | AbsoluteValue | Exponential | NaturalLogarithm | Logarithm
  | Hypotenuse | Max | Min
deriving DecidableEq, Repr

/-- The seven node variants of `ASTNode::Kind`.  A `NodeID` is the node's
arena index, modelled as a bare `Nat` (the `None` sentinel `(size_t)-1` is
never produced by the parser paths below).  A `RealNode`'s double is carried
as the lexeme `std::stod` was given. -/
inductive ASTNode where
  | ConstantNode (cKind : ConstantKind) (pos : Nat)
  | RealNode (value : String) (pos : Nat)
  | RationalNode (numerator denominator : Int) (pos : Nat)
  | IdentifierNode (name : String) (pos : Nat)
  | BinaryOpNode (bKind : BinaryOpKind) (left right : Nat) (pos : Nat)
  | UnaryOpNode (uKind : UnaryOpKind) (inner : Nat) (pos : Nat)
  | CallNode (fKind : FunctionKind) (args : List Nat) (pos : Nat)
deriving DecidableEq, Repr

/-- The parser's mutable state: `size_t _pos` and the `AST` arena being
filled (the arena is `std::vector<ASTNode>`; `parse` is modelled on a fresh
`Parser` and a fresh `AST`, so `_pos` starts at 0 and the arena empty). -/
structure PState where
  pos : Nat
  arena : List ASTNode
deriving DecidableEq, Repr

/-- Outcome of a parser routine: normal return carrying the new state, a
thrown `std::runtime_error` (`err`), undefined behaviour or an unexpected
library exception (`crash`), or fuel exhaustion (`oof`, a modelling artefact:
the C++ loops and recursion are unbounded). -/
inductive Res (α : Type) where
  | ok (a : α) (s : PState)
  | err
  | crash
  | oof
deriving DecidableEq, Repr

def Res.bind {α β : Type} : Res α → (α → PState → Res β) → Res β
  | .ok a s, k => k a s
  | .err, _ => .err
  | .crash, _ => .crash
  | .oof, _ => .oof

/-! ### Arena `add*` methods (class AST) -/

/-- `AST::addNode`: append, handle = old `arena.size()`. -/
def addNode (n : ASTNode) (s : PState) : Res Nat :=
  .ok s.arena.length { s with arena := s.arena ++ [n] }

def addConstant (cKind : ConstantKind) (pos : Nat) (s : PState) : Res Nat :=
  addNode (.ConstantNode cKind pos) s

def addReal (value : String) (pos : Nat) (s : PState) : Res Nat :=
  addNode (.RealNode value pos) s

/-- `AST::addRational`: divides both entries by
`std::gcd(std::abs(numerator), std::abs(denominator))` with no zero guard;
when both arguments are 0 the divisor is 0 and the division is undefined
behaviour (`crash`).  C++ `i64` division truncates toward zero; the divisor
divides both operands exactly, so Lean's `Int` division agrees. -/
def addRational (numerator denominator : Int) (pos : Nat) (s : PState) : Res Nat :=
  let commonDivisor : Int := (Int.gcd numerator denominator : Nat)
  if commonDivisor = 0 then .crash
  else addNode (.RationalNode (numerator / commonDivisor) (denominator / commonDivisor) pos) s

def addIdentifier (name : String) (pos : Nat) (s : PState) : Res Nat :=
  addNode (.IdentifierNode name pos) s

def addBinaryOp (bKind : BinaryOpKind) (left right : Nat) (pos : Nat) (s : PState) : Res Nat :=
  addNode (.BinaryOpNode bKind left right pos) s

def addUnaryOp (uKind : UnaryOpKind) (inner : Nat) (pos : Nat) (s : PState) : Res Nat :=
  addNode (.UnaryOpNode uKind inner pos) s

def addCall (fKind : FunctionKind) (args : List Nat) (pos : Nat) (s : PState) : Res Nat :=
  addNode (.CallNode fKind args pos) s

/-! ### Lookup tables (parser.h) -/

/-- `INFIX_OPS`: (leftBP, rightBP, opKind) per token type. -/
def INFIX_OPS : TokenType → Option (Nat × Nat × BinaryOpKind)
  | .Equals => some (1, 2, .Equals)
  | .Plus => some (3, 4, .Add)
  | .Minus => some (3, 4, .Subtract)
  | .Star => some (5, 6, .Multiply)
  | .Slash => some (5, 6, .Divide)
  | .Caret => some (12, 11, .Power)
  | _ => none

def PREFIX_UNARY_RBP : Nat := 9

def POSTFIX_LBP : Nat := 13

def FUNCTION_KIND_MAP : String → Option FunctionKind
  | "sin" => some .Sine
  | "cos" => some .Cosine
  | "tan" => some .Tangent
  | "ln" => some .NaturalLogarithm
  | "log" => some .Logarithm
  | "exp" => some .Exponential
  | _ => none

def OPERATOR_NAME_MAP : String → Option FunctionKind
  | "max" => some .Max
  | "min" => some .Min
  | "atan2" => some .Atan2
  | "hypot" => some .Hypotenuse
  | "abs" => some .AbsoluteValue
  | _ => none

def CONSTANT_MAP : String → Option ConstantKind
  | "pi" => some .PI
  | "e" => some .E
  | _ => none

def PREFIX_COMMANDS (name : String) : Bool :=
  match name with
  | "sin" | "cos" | "tan" | "ln" | "log" | "exp" | "pi" | "e"
  | "sqrt" | "frac" | "left" | "operatorname"
  | "arcsin" | "arccos" | "arctan" => true
  | _ => false

/-! ### Parser primitives (Parser::peek / advance / expect) -/

/-- `Parser::peek`: `(*_tokens)[_pos]`; indexing past the end of the vector
is undefined behaviour. -/
def peek (tk : List Token) (s : PState) : Res Token :=
  match tk.get? s.pos with
  | some t => .ok t s
  | none => .crash

/-- `Parser::advance`: returns the current token, `_pos++` unless it is the
`End` sentinel. -/
def advance (tk : List Token) (s : PState) : Res Token :=
  match tk.get? s.pos with
  | some t => if t.type = .End then .ok t s else .ok t { s with pos := s.pos + 1 }
  | none => .crash

/-- `Parser::expect`: advance past a token of the wanted type, else throw
(the thrown message is elided). -/
def expect (tk : List Token) (ty : TokenType) (s : PState) : Res Token :=
  match tk.get? s.pos with
  | some t => if t.type = ty then advance tk s else .err
  | none => .crash

/-- `Parser::canImplicitMultiply` (reads `peek()`, so it can also hit the
out-of-bounds crash). -/
def canImplicitMultiply (tk : List Token) (s : PState) : Res Bool :=
  match tk.get? s.pos with
  | none => .crash
  | some t =>
    .ok (match t.type with
         | .Number => true
         | .Identifier => t.lexeme == "!"
         | .LParenthesis => true
         | .LBrace => true
         | .Command => PREFIX_COMMANDS t.lexeme
         | _ => false) s

/-- `Parser::parseNumber`: builds the node from `peek()` WITHOUT advancing
past the token (this is the source's behaviour).  `std::get` on the wrong
variant alternative, or dereferencing an empty `optional`, crashes. -/
def parseNumber (tk : List Token) (s : PState) : Res Nat :=
  (peek tk s).bind fun t s =>
    if t.isInt then
      match t.number with
      | some { value := .intVal v, .. } => addRational v 1 t.pos s
      | _ => .crash
    else
      match t.number with
      | some { value := .floatVal rep, .. } => addReal rep t.pos s
      | _ => .crash

/-- The postfix-operator step at the top of `parseExpression`'s loop body
(split out of `exprLoop` as a named helper; it is not recursive).  Returns
`(broke, leftSide)`: `broke` is true when `POSTFIX_LBP < minBP` hit the
`break`. -/
def postfixStep (tk : List Token) (minBP leftSide : Nat) (t : Token) (s : PState) :
    Res (Bool × Nat) :=
  if t.type = .Identifier ∧ t.lexeme = "!" then
    if POSTFIX_LBP < minBP then .ok (true, leftSide) s  -- break
    else
      (advance tk s).bind fun tAdv s =>
      (addUnaryOp .Factorial leftSide tAdv.pos s).bind fun ls s =>
      .ok (false, ls) s
  else .ok (false, leftSide) s

/-! ### The Pratt parser (parser.cpp), fuelled -/

mutual

/-- `Parser::parseExpression(minBP)`: one prefix term, then the
postfix/infix/implicit-multiplication loop (`exprLoop`). -/
def parseExpression (tk : List Token) : Nat → Nat → PState → Res Nat
  | 0, _, _ => .oof
  | fuel + 1, minBP, s =>
    (parsePrefix tk fuel s).bind fun leftSide s =>
    exprLoop tk fuel minBP leftSide s
termination_by structural fuel _ _ => fuel

/-- The `while (true)` body of `parseExpression`.  `t` is read once per
iteration; the factorial branch does not `continue`, so after it the stale
`t` flows into the infix checks (where it never matches) and only the
implicit-multiplication check re-reads the position. -/
def exprLoop (tk : List Token) : Nat → Nat → Nat → PState → Res Nat
  | 0, _, _, _ => .oof
  | fuel + 1, minBP, leftSide0, s =>
    (peek tk s).bind fun t s =>
    -- postfix ops
    (postfixStep tk minBP leftSide0 t s).bind fun br s =>
    if br.1 then .ok br.2 s else
    let leftSide := br.2
    -- infix ops
    match INFIX_OPS t.type with
    | some (leftBP, rightBP, opKind) =>
      if leftBP < minBP then .ok leftSide s  -- break
      else
        (advance tk s).bind fun op s =>
        (parseExpression tk fuel rightBP s).bind fun rightSide s =>
        (addBinaryOp opKind leftSide rightSide op.pos s).bind fun ls s =>
        exprLoop tk fuel minBP ls s  -- continue
    | none =>
    -- infix commands (\cdot, \times, \div)
    if t.type = .Command ∧ (t.lexeme = "cdot" ∨ t.lexeme = "times" ∨ t.lexeme = "div") then
      if 5 < minBP then .ok leftSide s  -- break
      else
        let kind : BinaryOpKind := if t.lexeme = "div" then .Divide else .Multiply
        (advance tk s).bind fun tAdv s =>
        (parseExpression tk fuel 6 s).bind fun rightSide s =>
        (addBinaryOp kind leftSide rightSide tAdv.pos s).bind fun ls s =>
        exprLoop tk fuel minBP ls s  -- continue
    else
    -- implicit multiplication (IMPLICIT_MULTIPLY_OP = { 5, 6, Multiply })
    (canImplicitMultiply tk s).bind fun b s =>
    if b then
      if 5 < minBP then .ok leftSide s  -- break
      else
        (parseExpression tk fuel 6 s).bind fun rightSide s =>
        (peek tk s).bind fun tAfter s =>
        (addBinaryOp .Multiply leftSide rightSide tAfter.pos s).bind fun ls s =>
        exprLoop tk fuel minBP ls s  -- continue
    else
      .ok leftSide s  -- break
termination_by structural fuel _ _ _ => fuel

/-- `Parser::parsePrefix`. -/
def parsePrefix (tk : List Token) : Nat → PState → Res Nat
  | 0, _ => .oof
  | fuel + 1, s =>
    (peek tk s).bind fun t s =>
    if t.type = .Number then parseNumber tk s
    else if t.type = .Identifier then
      (advance tk s).bind fun t2 s => addIdentifier t2.lexeme t2.pos s
    else if t.type = .Minus then
      (advance tk s).bind fun t2 s =>
      (parseExpression tk fuel PREFIX_UNARY_RBP s).bind fun inner s =>
      addUnaryOp .Negate inner t2.pos s
    else if t.type = .LParenthesis then
      (advance tk s).bind fun _ s =>
      (parseExpression tk fuel 0 s).bind fun inner s =>
      (expect tk .RParenthesis s).bind fun _ s => .ok inner s
    else if t.type = .RBrace then
      -- the source tests RBrace here (not LBrace) and then calls the
      -- brace-group helper, whose first step expects an LBrace
      parseBraceGroup tk fuel s
    else if t.type = .Command then parseCommand tk fuel s
    else .err  -- throw "unexpected token at pos ..."
termination_by structural fuel _ => fuel

/-- `Parser::parseCommand` (dispatch on the token's lexeme, which for
lexer-produced Command tokens still contains the leading backslash). -/
def parseCommand (tk : List Token) : Nat → PState → Res Nat
  | 0, _ => .oof
  | fuel + 1, s =>
    (peek tk s).bind fun t s =>
    let cmd := t.lexeme
    match CONSTANT_MAP cmd with
    | some k => (advance tk s).bind fun t2 s => addConstant k t2.pos s
    | none =>
    match FUNCTION_KIND_MAP cmd with
    | some _ => parseSingleArgFunction tk fuel s
    | none =>
    if cmd = "operatorname" then parseOperatorName tk fuel s
    else if cmd = "frac" then parseFraction tk fuel s
    else if cmd = "sqrt" then
      (advance tk s).bind fun t2 s =>
      (parseBraceGroup tk fuel s).bind fun inner s =>
      -- sqrt(x) = x^(1/2)
      (addRational 1 2 t2.pos s).bind fun half s =>
      addBinaryOp .Power inner half t2.pos s
    else if cmd = "left" then parseLeftRight tk fuel s
    else .err  -- throw "unknown command: ..."
termination_by structural fuel _ => fuel

/-- `Parser::parseBraceGroup`. -/
def parseBraceGroup (tk : List Token) : Nat → PState → Res Nat
  | 0, _ => .oof
  | fuel + 1, s =>
    (expect tk .LBrace s).bind fun _ s =>
    (parseExpression tk fuel 0 s).bind fun inner s =>
    (expect tk .RBrace s).bind fun _ s => .ok inner s
termination_by structural fuel _ => fuel

/-- `Parser::parseLeftRight`. -/
def parseLeftRight (tk : List Token) : Nat → PState → Res Nat
  | 0, _ => .oof
  | fuel + 1, s =>
    (advance tk s).bind fun _ s =>
    (expect tk .LParenthesis s).bind fun _ s =>
    (parseExpression tk fuel 0 s).bind fun inner s =>
    (peek tk s).bind fun t s =>
    if ¬ (t.type = .Command ∧ t.lexeme = "right") then .err
    else
      (advance tk s).bind fun _ s =>
      (expect tk .RParenthesis s).bind fun _ s => .ok inner s
termination_by structural fuel _ => fuel

/-- `Parser::parseFraction`: the tentative `{±int}{±int}` fast path building
one Rational directly; on any shape mismatch `_pos` rewinds to just after
the `\frac` token and the general path parses two brace groups under a
Divide node. -/
def parseFraction (tk : List Token) : Nat → PState → Res Nat
  | 0, _ => .oof
  | fuel + 1, s =>
    (advance tk s).bind fun tFrac s =>
    let p := tFrac.pos
    -- store the original pos so we can use advance freely
    let saved := s.pos
    let general : PState → Res Nat := fracGeneralPath tk fuel p saved
    (peek tk s).bind fun t1 s =>
    if t1.type = .LBrace then
      (advance tk s).bind fun _ s =>
      (peek tk s).bind fun tSgnN s =>
      let negativeNumerator := tSgnN.type = .Minus
      (if negativeNumerator then (advance tk s).bind fun _ s => .ok () s else .ok () s).bind
        fun _ s =>
      (peek tk s).bind fun t2 s =>
      if t2.type = .Number ∧ t2.isInt then
        (advance tk s).bind fun t3 s =>
        match t3.number with
        | some { value := .intVal nv, .. } =>
          let numerator := if negativeNumerator then -nv else nv
          (peek tk s).bind fun t4 s =>
          if t4.type = .RBrace then
            (advance tk s).bind fun _ s =>
            (peek tk s).bind fun t5 s =>
            if t5.type = .LBrace then
              (advance tk s).bind fun _ s =>
              (peek tk s).bind fun tSgnD s =>
              let negativeDenominator := tSgnD.type = .Minus
              (if negativeDenominator then (advance tk s).bind fun _ s => .ok () s
               else .ok () s).bind fun _ s =>
              (peek tk s).bind fun t6 s =>
              if t6.type = .Number ∧ t6.isInt then
                (advance tk s).bind fun t7 s =>
                match t7.number with
                | some { value := .intVal dv, .. } =>
                  let denominator := if negativeDenominator then -dv else dv
                  (peek tk s).bind fun t8 s =>
                  if t8.type = .RBrace then
                    (advance tk s).bind fun _ s =>
                    addRational numerator denominator p s
                  else general s
                | _ => .crash
              else general s
            else general s
          else general s
        | _ => .crash
      else general s
    else general s
termination_by structural fuel _ => fuel

/-- The fallback (general) path of `Parser::parseFraction`: `_pos = saved;`
then two brace groups under a Divide node.  (Split out of `parseFraction` as
its own fuelled function; the extra fuel tick is a modelling artefact.) -/
def fracGeneralPath (tk : List Token) : Nat → Nat → Nat → PState → Res Nat
  | 0, _, _, _ => .oof
  | fuel + 1, p, saved, s =>
    (parseBraceGroup tk fuel { s with pos := saved }).bind fun numerator s =>
    (parseBraceGroup tk fuel s).bind fun denominator s =>
    addBinaryOp .Divide numerator denominator p s
termination_by structural fuel _ _ _ => fuel

/-- `Parser::parseSingleArgFunction` (its `FUNCTION_KIND_MAP.at` throws
`std::out_of_range` when the lexeme is absent; unreachable from
`parseCommand`, modelled as a crash). -/
def parseSingleArgFunction (tk : List Token) : Nat → PState → Res Nat
  | 0, _ => .oof
  | fuel + 1, s =>
    (advance tk s).bind fun t s =>
    match FUNCTION_KIND_MAP t.lexeme with
    | none => .crash
    | some fKind =>
      let p := t.pos
      (peek tk s).bind fun tn s =>
      (if tn.type = .LBrace then parseBraceGroup tk fuel s
       else if tn.type = .LParenthesis then
        (advance tk s).bind fun _ s =>
        (parseExpression tk fuel 0 s).bind fun arg s =>
        (expect tk .RParenthesis s).bind fun _ s => .ok arg s
       else parseExpression tk fuel PREFIX_UNARY_RBP s).bind fun arg s =>
      addCall fKind [arg] p s
termination_by structural fuel _ => fuel

/-- `Parser::parseOperatorName`. -/
def parseOperatorName (tk : List Token) : Nat → PState → Res Nat
  | 0, _ => .oof
  | fuel + 1, s =>
    (advance tk s).bind fun t s =>
    let p := t.pos
    (expect tk .LBrace s).bind fun _ s =>
    (expect tk .Identifier s).bind fun name s =>
    (expect tk .RBrace s).bind fun _ s =>
    match OPERATOR_NAME_MAP name.lexeme with
    | none => .err  -- throw "unknown operatorname: ..."
    | some k =>
      (expect tk .LParenthesis s).bind fun _ s =>
      (parseArgList tk fuel s).bind fun args s =>
      (expect tk .RParenthesis s).bind fun _ s =>
      addCall k args p s
termination_by structural fuel _ => fuel

/-- `Parser::parseArgList`. -/
def parseArgList (tk : List Token) : Nat → PState → Res (List Nat)
  | 0, _ => .oof
  | fuel + 1, s =>
    (parseExpression tk fuel 0 s).bind fun a s =>
    argListLoop tk fuel [a] s
termination_by structural fuel _ => fuel

/-- The `while (peek().is(Comma))` loop of `parseArgList`. -/
def argListLoop (tk : List Token) : Nat → List Nat → PState → Res (List Nat)
  | 0, _, _ => .oof
  | fuel + 1, args, s =>
    (peek tk s).bind fun t s =>
    if t.type = .Comma then
      (advance tk s).bind fun _ s =>
      (parseExpression tk fuel 0 s).bind fun a s =>
      argListLoop tk fuel (args ++ [a]) s
    else .ok args s
termination_by structural fuel _ _ => fuel

end

/-- `Parser::parse` on a fresh parser and a fresh `AST`: parse the whole
expression at binding power 0, set `root`, and report whether the next token
is the `End` sentinel.  The returned pair is (that report, the root id); the
final `PState` carries the arena. -/
def parse (tk : List Token) (fuel : Nat) : Res (Bool × Nat) :=
  (parseExpression tk fuel 0 ⟨0, []⟩).bind fun root s =>
  (peek tk s).bind fun t s => .ok (t.is .End, root) s

/-! ### Concrete token sequences used by the claims -/

/-- What `Tokenize` produces for `"1+2*3"`: note there is NO `End` sentinel
(the final `"3"` consumed the terminating NUL inside the `Number` state and
the `--i` pushback is skipped for it, so the `Start` state never sees the
sentinel). -/
def toks123 : List Token :=
  [⟨.Number, "1", 1, some ⟨.intVal 1, true⟩⟩, ⟨.Plus, "+", 1, none⟩,
   ⟨.Number, "2", 3, some ⟨.intVal 2, true⟩⟩, ⟨.Star, "*", 3, none⟩,
   ⟨.Number, "3", 5, some ⟨.intVal 3, true⟩⟩]

/-- What `Tokenize` produces for `"\frac\x7b1\x7d\x7b2\x7d"`: the Command
token's lexeme keeps the leading backslash. -/
def toksFrac12 : List Token :=
  [⟨.Command, "\\frac", 0, none⟩, ⟨.LBrace, "\x7b", 5, none⟩,
   ⟨.Number, "1", 7, some ⟨.intVal 1, true⟩⟩, ⟨.RBrace, "\x7d", 7, none⟩,
   ⟨.LBrace, "\x7b", 8, none⟩, ⟨.Number, "2", 10, some ⟨.intVal 2, true⟩⟩,
   ⟨.RBrace, "\x7d", 10, none⟩, ⟨.End, "", 11, none⟩]

/-- What `Tokenize` produces for `"x\x7by\x7d"`. -/
def toksXY : List Token :=
  [⟨.Identifier, "x", 0, none⟩, ⟨.LBrace, "\x7b", 1, none⟩,
   ⟨.Identifier, "y", 2, none⟩, ⟨.RBrace, "\x7d", 3, none⟩, ⟨.End, "", 4, none⟩]

/-- A hand-built token sequence in the shape `\frac\x7b1\x7d\x7b-2\x7d` whose
Command lexeme is the bare `"frac"` the parser compares against (`parse` is a
public entry point over arbitrary token vectors; the lexer itself always
keeps the backslash in the lexeme). -/
def toksFracNeg : List Token :=
  [⟨.Command, "frac", 0, none⟩, ⟨.LBrace, "\x7b", 1, none⟩,
   ⟨.Number, "1", 2, some ⟨.intVal 1, true⟩⟩, ⟨.RBrace, "\x7d", 3, none⟩,
   ⟨.LBrace, "\x7b", 4, none⟩, ⟨.Minus, "-", 5, none⟩,
   ⟨.Number, "2", 6, some ⟨.intVal 2, true⟩⟩, ⟨.RBrace, "\x7d", 7, none⟩,
   ⟨.End, "", 8, none⟩]

/-- A hand-built token sequence in the shape `\frac\x7b0\x7d\x7b0\x7d` with a
bare `"frac"` Command lexeme. -/
def toksFrac00 : List Token :=
  [⟨.Command, "frac", 0, none⟩, ⟨.LBrace, "\x7b", 1, none⟩,
   ⟨.Number, "0", 2, some ⟨.intVal 0, true⟩⟩, ⟨.RBrace, "\x7d", 3, none⟩,
   ⟨.LBrace, "\x7b", 4, none⟩, ⟨.Number, "0", 5, some ⟨.intVal 0, true⟩⟩,
   ⟨.RBrace, "\x7d", 6, none⟩, ⟨.End, "", 7, none⟩]

/-- A hand-built token sequence in the shape `\frac\x7b3\x7d\x7b6\x7d` with a
bare `"frac"` Command lexeme (the fast path reduces 3/6 to 1/2). -/
def toksFrac36 : List Token :=
  [⟨.Command, "frac", 0, none⟩, ⟨.LBrace, "\x7b", 1, none⟩,
   ⟨.Number, "3", 2, some ⟨.intVal 3, true⟩⟩, ⟨.RBrace, "\x7d", 3, none⟩,
   ⟨.LBrace, "\x7b", 4, none⟩, ⟨.Number, "6", 5, some ⟨.intVal 6, true⟩⟩,
   ⟨.RBrace, "\x7d", 6, none⟩, ⟨.End, "", 7, none⟩]

/-- A hand-built token sequence for `x!` (identifier, postfix factorial,
`End` sentinel): parsing it builds a `UnaryOp` node whose child is the
identifier leaf. -/
def toksXBang : List Token :=
  [⟨.Identifier, "x", 0, none⟩, ⟨.Identifier, "!", 1, none⟩, ⟨.End, "", 2, none⟩]

/-! ### Claim-level predicates -/

/-- The property claimed of a finished token sequence: non-empty and
terminated by an `End` sentinel positioned at `len(input)`. -/
def lastIsEndSentinel (input : String) (ts : List Token) : Bool :=
  match ts.getLast? with
  | some t => t.type == .End && t.pos == input.length
  | none => false

/-- The property claimed of every Rational node in an arena: reduced by the
gcd of the absolute values AND a positive denominator. -/
def rationalsReducedPositive (A : List ASTNode) : Bool :=
  A.all fun n =>
    match n with
    | .RationalNode num den _ => decide (Int.gcd num den = 1 ∧ 0 < den)
    | _ => true

/-- The child `NodeID`s a node refers to (BinaryOp left/right, UnaryOp inner,
Call args). -/
def childIDs : ASTNode → List Nat
  | .BinaryOpNode _ l r _ => [l, r]
  | .UnaryOpNode _ inner _ => [inner]
  | .CallNode _ args _ => args
  | _ => []

/-! ### The arena invariants: children precede their parent, rationals
are reduced by the gcd of the absolute values -/

/-- Every node of the arena refers only to strictly smaller indices. -/
def WFArena (A : List ASTNode) : Prop :=
  ∀ i node, A.get? i = some node → ∀ c ∈ childIDs node, c < i

/-- What `addRational`'s gcd division actually guarantees for a stored
Rational node (no sign or zero-denominator normalization). -/
def RatReduced : ASTNode → Prop
  | .RationalNode num den _ => Int.gcd num den = 1
  | _ => True

def InvArena (A : List ASTNode) : Prop :=
  WFArena A ∧ ∀ node ∈ A, RatReduced node

/-- `r.sat P`: when the computation returns normally, its value and final
state satisfy `P`. -/
def Res.sat {α : Type} (r : Res α) (P : α → PState → Prop) : Prop :=
  ∀ a s, r = .ok a s → P a s

/-- Postcondition of every node-returning parser routine: the invariant is
preserved, the arena only grows, and the returned `NodeID` is in bounds. -/
def nodePost (s0 : PState) (nid : Nat) (s : PState) : Prop :=
  InvArena s.arena ∧ s0.arena.length ≤ s.arena.length ∧ nid < s.arena.length

/-- Postcondition of `parseArgList`: ditto, with every returned id in
bounds. -/
def listPost (s0 : PState) (ids : List Nat) (s : PState) : Prop :=
  InvArena s.arena ∧ s0.arena.length ≤ s.arena.length ∧ ∀ a ∈ ids, a < s.arena.length

/-! ### Concretely evaluated claim theorems -/

/-- C2 (code bug exhibit): `Tokenize` succeeds on `"3"` but the produced
token sequence consists of the single `Number` token alone — the `End`
sentinel claimed by the spec (and by the lexer's own header comment, which
says the `'\0'` step commits the current token AND adds an end token) is
missing, because the `Number` state consumed the sentinel character and the
`--i` pushback is skipped for it, so the `Start` state never processes the
end of input. -/
theorem tokenize_3_succeeds_without_end_sentinel :
    Tokenize "3" 20 = .ok [⟨.Number, "3", 1, some ⟨.intVal 3, true⟩⟩] ∧
    lastIsEndSentinel "3" [⟨.Number, "3", 1, some ⟨.intVal 3, true⟩⟩] = false := by
  exact ⟨by decide, by decide⟩

/-- C4 (code bug exhibit): lexing `"3.14"` goes through the fractional-mark
state, yet the committed token is INTEGER-classified (`isInt = true`) and its
payload is `std::stoll("3.14") = 3`, not the float value 3.14 the claim (and
the spec) require. -/
theorem tokenize_3_14_commits_integer_token :
    Tokenize "3.14" 30 = .ok [⟨.Number, "3.14", 4, some ⟨.intVal 3, true⟩⟩] ∧
    Token.isInt ⟨.Number, "3.14", 4, some ⟨.intVal 3, true⟩⟩ = true := by
  exact ⟨by decide, by decide⟩

/-- C6 (code bug exhibit): the digit run `"3000000000"` triggers none of the
four listed failure conditions, yet `Tokenize` neither succeeds nor fails:
the `std::stoi` commit of the `Number` state throws `std::out_of_range`
(int is 32-bit), which escapes `Tokenize` — modelled as a crash. -/
theorem tokenize_overflow_escapes_failure_taxonomy :
    Tokenize "3000000000" 40 = .crash := by
  decide

/-- C7 (code bug exhibit): the digit run `"2147483648"` (= 2^31) fits a
signed 64-bit integer, but the `Number` state commits through 32-bit
`std::stoi`, which throws `std::out_of_range`; `"2147483647"` still works and
carries the exact value. -/
theorem tokenize_int64_digit_run_crashes :
    Tokenize "2147483648" 40 = .crash ∧
    Tokenize "2147483647" 40 =
      .ok [⟨.Number, "2147483647", 10, some ⟨.intVal 2147483647, true⟩⟩] := by
  exact ⟨by decide, by decide⟩

/-- C5 (code bug exhibit): tokenizing `"\frac\x7b1\x7d\x7b2\x7d"` keeps the
backslash in the Command lexeme (`"\frac"`), so `parseCommand`'s comparisons
against the bare names `"frac"`, `"sqrt"`, ... all fail and the parse throws
"unknown command" instead of producing the claimed `Rational(1,2)` node —
the `\frac` fast path is unreachable from any lexed string. -/
theorem frac_1_2_parse_throws_unknown_command :
    Tokenize "\\frac\x7b1\x7d\x7b2\x7d" 60 = .ok toksFrac12 ∧
    parse toksFrac12 30 = .err := by
  exact ⟨by decide, by decide⟩

/-- C8 (code bug exhibit): on `"x\x7by\x7d"` the parser reaches the
implicit-multiplication branch with an opening brace ahead, but
`parsePrefix` tests for a CLOSING brace (`RBrace`) instead of `LBrace`, so
the braced right-hand operand raises "unexpected token" rather than parsing
as `Multiply(x, y)`. -/
theorem x_brace_y_parse_throws :
    Tokenize "x\x7by\x7d" 30 = .ok toksXY ∧
    parse toksXY 30 = .err := by
  exact ⟨by decide, by decide⟩

/-- C10 (code bug exhibit): on a `\frac\x7b0\x7d\x7b0\x7d`-shaped token
sequence the fast path of `parseFraction` calls `addRational(0, 0, pos)`,
whose divisor `std::gcd(0, 0) = 0` is NOT guarded: the two divisions are
division by zero (undefined behaviour, modelled as a crash). -/
theorem frac_0_0_divides_by_zero :
    parse toksFrac00 30 = .crash := by
  decide

/-- Helper for the nontermination exhibit: at binding power 6 over `toks123`
(position 0, a `Number` token ahead), `parseExpression` adds one
`Rational(1,1)` node, does not advance (`parseNumber` never advances), and
returns — for every fuel of at least 2 and over any arena. -/
theorem parseExpression6_toks123 (f : Nat) (A : List ASTNode) :
    parseExpression toks123 (f + 2) 6 ⟨0, A⟩ = .ok A.length ⟨0, A ++ [.RationalNode 1 1 1]⟩ := by
  simp [parseExpression, parsePrefix, exprLoop, parseNumber, peek, advance,
    canImplicitMultiply, addRational, addNode, Res.bind, toks123, Token.isInt,
    INFIX_OPS, Int.gcd, postfixStep]

/-- Helper for the nontermination exhibit: the `parseExpression` loop at
binding power 0 over `toks123` runs out of any amount of fuel — each
iteration synthesizes an implicit multiplication whose right-hand side is the
same unconsumed `Number` token, so the position never advances and the arena
grows forever. -/
theorem exprLoop0_toks123_oof : ∀ (f ls : Nat) (A : List ASTNode),
    exprLoop toks123 f 0 ls ⟨0, A⟩ = .oof := by
  have hget0 : toks123[0]? = some (⟨.Number, "1", 1, some ⟨.intVal 1, true⟩⟩ : Token) := rfl
  intro f
  induction f with
  | zero => intro ls A; rfl
  | succ f ih =>
    intro ls A
    rcases f with _ | (_ | g)
    · rfl
    · rfl
    · have h6 := parseExpression6_toks123 g A
      conv_lhs => rw [exprLoop]
      simp [peek, Res.bind, canImplicitMultiply, INFIX_OPS, addBinaryOp,
        addNode, hget0, h6, postfixStep]
      exact ih _ _

/-- C1 (code bug exhibit): tokenizing `"1+2*3"` yields `toks123` — which
already lacks the `End` sentinel — and `parse` on it returns out-of-fuel for
EVERY fuel: `parseNumber` never advances past the `Number` token, so the
implicit-multiplication loop re-reads `"1"` forever and the claimed
`Add(Rational(1,1), Multiply(Rational(2,1), Rational(3,1)))` tree is never
produced. -/
theorem parse_1_plus_2_times_3_never_returns :
    Tokenize "1+2*3" 40 = .ok toks123 ∧ ∀ fuel, parse toks123 fuel = .oof := by
  have hget0 : toks123[0]? = some (⟨.Number, "1", 1, some ⟨.intVal 1, true⟩⟩ : Token) := rfl
  refine ⟨by decide, ?_⟩
  intro fuel
  rcases fuel with _ | (_ | g)
  · rfl
  · rfl
  · rw [parse, parseExpression, parsePrefix]
    simp [peek, Res.bind, parseNumber, Token.isInt, addRational, addNode,
      hget0, exprLoop0_toks123_oof]

/-- C3 (counterexample): the parser stores `Rational(1, -2)` for a
`\frac\x7b1\x7d\x7b-2\x7d`-shaped token sequence: `addRational` divides by
the gcd but never normalizes signs, so the denominator stays negative and
the claimed invariant `denominator > 0` (sign on the numerator) is false. -/
theorem frac_1_neg2_stores_negative_denominator :
    parse toksFracNeg 30 = .ok (true, 0) ⟨8, [.RationalNode 1 (-2) 0]⟩ ∧
    rationalsReducedPositive [.RationalNode 1 (-2) 0] = false := by
  exact ⟨by decide, by decide⟩

/-! ### Hoare-style lemmas for the parser monad -/

theorem sat_ok {α : Type} {P : α → PState → Prop} {a : α} {s : PState} (h : P a s) :
    (Res.ok a s).sat P := by
  intro b s' hb
  cases hb
  exact h

theorem sat_err {α : Type} {P : α → PState → Prop} : (Res.err : Res α).sat P :=
  fun _ _ hb => Res.noConfusion hb

theorem sat_crash {α : Type} {P : α → PState → Prop} : (Res.crash : Res α).sat P :=
  fun _ _ hb => Res.noConfusion hb

theorem sat_oof {α : Type} {P : α → PState → Prop} : (Res.oof : Res α).sat P :=
  fun _ _ hb => Res.noConfusion hb

theorem sat_bind {α β : Type} {r : Res α} {k : α → PState → Res β}
    {P : α → PState → Prop} {Q : β → PState → Prop}
    (h1 : r.sat P) (h2 : ∀ a s, P a s → (k a s).sat Q) : (r.bind k).sat Q := by
  intro b s' hb
  cases r with
  | ok a s => exact h2 a s (h1 a s rfl) b s' hb
  | err => exact Res.noConfusion hb
  | crash => exact Res.noConfusion hb
  | oof => exact Res.noConfusion hb

theorem sat_imp {α : Type} {r : Res α} {P Q : α → PState → Prop}
    (h : r.sat P) (himp : ∀ a s, P a s → Q a s) : r.sat Q :=
  fun a s ha => himp a s (h a s ha)

theorem nodePost_trans {s0 s1 s2 : PState} {n1 n2 : Nat}
    (h1 : nodePost s0 n1 s1) (h2 : nodePost s1 n2 s2) : nodePost s0 n2 s2 :=
  ⟨h2.1, h1.2.1.trans h2.2.1, h2.2.2⟩

/-- `peek` leaves the state unchanged (or crashes). -/
theorem peek_sat (tk : List Token) (s : PState) :
    (peek tk s).sat fun _ s' => s' = s := by
  intro t s' h
  unfold peek at h
  cases hg : tk.get? s.pos with
  | some t0 => rw [hg] at h; cases h; rfl
  | none => rw [hg] at h; exact Res.noConfusion h

/-- `advance` only moves the position: the arena is untouched. -/
theorem advance_sat (tk : List Token) (s : PState) :
    (advance tk s).sat fun _ s' => s'.arena = s.arena := by
  intro t s' h
  unfold advance at h
  cases hg : tk.get? s.pos with
  | some t0 =>
    rw [hg] at h
    dsimp only at h
    by_cases ht : t0.type = .End
    · rw [if_pos ht] at h; cases h; rfl
    · rw [if_neg ht] at h; cases h; rfl
  | none => rw [hg] at h; exact Res.noConfusion h

/-- `expect` only moves the position: the arena is untouched. -/
theorem expect_sat (tk : List Token) (ty : TokenType) (s : PState) :
    (expect tk ty s).sat fun _ s' => s'.arena = s.arena := by
  intro t s' h
  unfold expect at h
  cases hg : tk.get? s.pos with
  | some t0 =>
    rw [hg] at h
    dsimp only at h
    by_cases ht : t0.type = ty
    · rw [if_pos ht] at h; exact advance_sat tk s t s' h
    · rw [if_neg ht] at h; exact Res.noConfusion h
  | none => rw [hg] at h; exact Res.noConfusion h

/-- `canImplicitMultiply` leaves the state unchanged (or crashes). -/
theorem canImplicitMultiply_sat (tk : List Token) (s : PState) :
    (canImplicitMultiply tk s).sat fun _ s' => s' = s := by
  intro t s' h
  unfold canImplicitMultiply at h
  cases hg : tk.get? s.pos with
  | some t0 => rw [hg] at h; cases h; rfl
  | none => rw [hg] at h; exact Res.noConfusion h

/-- Appending a node whose children are in bounds preserves the invariant. -/
theorem addNode_post {n : ASTNode} {s : PState} (hInv : InvArena s.arena)
    (hch : ∀ c ∈ childIDs n, c < s.arena.length) (hrat : RatReduced n) :
    (addNode n s).sat (nodePost s) := by
  intro a s' h
  cases h
  refine ⟨⟨?_, ?_⟩, by simp, by simp⟩
  · intro i node hi c hc
    rcases lt_trichotomy i s.arena.length with hlt | heq | hgt
    · rw [List.get?_append hlt] at hi
      exact hInv.1 i node hi c hc
    · subst heq
      rw [List.get?_concat_length] at hi
      cases hi
      exact hch c hc
    · rw [List.get?_eq_none.2 (by simp; omega)] at hi
      exact Option.noConfusion hi
  · intro node hmem
    rcases List.mem_append.1 hmem with h1 | h1
    · exact hInv.2 node h1
    · rw [List.mem_singleton] at h1
      subst h1
      exact hrat

theorem addConstant_post {k : ConstantKind} {p : Nat} {s : PState} (hInv : InvArena s.arena) :
    (addConstant k p s).sat (nodePost s) :=
  addNode_post hInv (by intro c hc; simp [childIDs] at hc) (by trivial)

theorem addReal_post {v : String} {p : Nat} {s : PState} (hInv : InvArena s.arena) :
    (addReal v p s).sat (nodePost s) :=
  addNode_post hInv (by intro c hc; simp [childIDs] at hc) (by trivial)

theorem addIdentifier_post {nm : String} {p : Nat} {s : PState} (hInv : InvArena s.arena) :
    (addIdentifier nm p s).sat (nodePost s) :=
  addNode_post hInv (by intro c hc; simp [childIDs] at hc) (by trivial)

/-- Whatever `addRational` stores (when it does not divide by zero) is
reduced: `gcd(|num/g|, |den/g|) = 1` for `g = gcd(|num|, |den|) ≠ 0`. -/
theorem addRational_post {num den : Int} {p : Nat} {s : PState} (hInv : InvArena s.arena) :
    (addRational num den p s).sat (nodePost s) := by
  unfold addRational
  by_cases hg : ((Int.gcd num den : Nat) : Int) = 0
  · rw [if_pos hg]; exact sat_crash
  · rw [if_neg hg]
    refine addNode_post hInv (by intro c hc; simp [childIDs] at hc) ?_
    show Int.gcd _ _ = 1
    have hpos : 0 < Int.gcd num den := by
      rcases Nat.eq_zero_or_pos (Int.gcd num den) with h0 | h
      · exact absurd (by exact_mod_cast h0) hg
      · exact h
    exact Int.gcd_div_gcd_div_gcd hpos

theorem addBinaryOp_post {k : BinaryOpKind} {l r p : Nat} {s : PState}
    (hInv : InvArena s.arena) (hl : l < s.arena.length) (hr : r < s.arena.length) :
    (addBinaryOp k l r p s).sat (nodePost s) := by
  refine addNode_post hInv ?_ (by trivial)
  intro c hc
  simp [childIDs] at hc
  rcases hc with rfl | rfl
  · exact hl
  · exact hr

theorem addUnaryOp_post {k : UnaryOpKind} {inner p : Nat} {s : PState}
    (hInv : InvArena s.arena) (hi : inner < s.arena.length) :
    (addUnaryOp k inner p s).sat (nodePost s) := by
  refine addNode_post hInv ?_ (by trivial)
  intro c hc
  simp [childIDs] at hc
  subst hc
  exact hi

theorem addCall_post {k : FunctionKind} {args : List Nat} {p : Nat} {s : PState}
    (hInv : InvArena s.arena) (hargs : ∀ a ∈ args, a < s.arena.length) :
    (addCall k args p s).sat (nodePost s) := by
  refine addNode_post hInv ?_ (by trivial)
  intro c hc
  simp [childIDs] at hc
  exact hargs c hc

theorem parseNumber_post {tk : List Token} {s : PState} (hInv : InvArena s.arena) :
    (parseNumber tk s).sat (nodePost s) := by
  unfold parseNumber
  refine sat_bind (peek_sat tk s) (fun t s1 h1 => ?_)
  subst h1
  by_cases hi : t.isInt = true
  · rw [if_pos hi]
    cases hn : t.number with
    | some n =>
      obtain ⟨nv, ni⟩ := n
      cases nv with
      | intVal v => exact addRational_post hInv
      | floatVal rep => exact sat_crash
    | none => exact sat_crash
  · rw [if_neg hi]
    cases hn : t.number with
    | some n =>
      obtain ⟨nv, ni⟩ := n
      cases nv with
      | intVal v => exact sat_crash
      | floatVal rep => exact addReal_post hInv
    | none => exact sat_crash


/-! ### Preservation of the arena invariants through every parser routine -/

/-- The postfix step preserves the invariant, grows the arena, and returns an
in-bounds node id. -/
theorem postfixStep_sat {tk : List Token} {minBP leftSide : Nat} {t : Token} {s : PState}
    (hInv : InvArena s.arena) (hls : leftSide < s.arena.length) :
    (postfixStep tk minBP leftSide t s).sat fun br s' =>
      InvArena s'.arena ∧ s.arena.length ≤ s'.arena.length ∧ br.2 < s'.arena.length := by
  unfold postfixStep
  by_cases hc : t.type = .Identifier ∧ t.lexeme = "!"
  · rw [if_pos hc]
    by_cases hbp : POSTFIX_LBP < minBP
    · rw [if_pos hbp]
      exact sat_ok ⟨hInv, le_refl _, hls⟩
    · rw [if_neg hbp]
      refine sat_bind (advance_sat tk s) fun tAdv s1 h1 => ?_
      have e1 : s1.arena.length = s.arena.length := by rw [h1]
      refine sat_bind (addUnaryOp_post (h1 ▸ hInv) (by omega)) fun ls s2 h2 => ?_
      have e2 : s1.arena.length ≤ s2.arena.length := h2.2.1
      exact sat_ok ⟨h2.1, by omega, h2.2.2⟩
  · rw [if_neg hc]
    exact sat_ok ⟨hInv, le_refl _, hls⟩

set_option maxHeartbeats 1000000

/-- The optional minus-sign advance inside the fraction fast path does not
touch the arena. -/
theorem skipMinus_sat (tk : List Token) (c : Prop) [Decidable c] (s : PState) :
    (if c then (advance tk s).bind (fun _ s => Res.ok () s) else Res.ok () s).sat
      fun _ s' => s'.arena = s.arena := by
  by_cases hc : c
  · rw [if_pos hc]
    exact sat_bind (advance_sat tk s) fun _ s1 h1 => sat_ok h1
  · rw [if_neg hc]
    exact sat_ok rfl

/-- One induction over fuel: every routine of the parser preserves the arena
invariants (children strictly precede their parent; every stored Rational is
gcd-reduced), only appends to the arena, and returns in-bounds node ids. -/
theorem parserInv : ∀ fuel : Nat,
    (∀ tk minBP s, InvArena s.arena → (parseExpression tk fuel minBP s).sat (nodePost s)) ∧
    (∀ tk minBP ls s, InvArena s.arena → ls < s.arena.length →
        (exprLoop tk fuel minBP ls s).sat (nodePost s)) ∧
    (∀ tk s, InvArena s.arena → (parsePrefix tk fuel s).sat (nodePost s)) ∧
    (∀ tk s, InvArena s.arena → (parseCommand tk fuel s).sat (nodePost s)) ∧
    (∀ tk s, InvArena s.arena → (parseBraceGroup tk fuel s).sat (nodePost s)) ∧
    (∀ tk s, InvArena s.arena → (parseLeftRight tk fuel s).sat (nodePost s)) ∧
    (∀ tk s, InvArena s.arena → (parseFraction tk fuel s).sat (nodePost s)) ∧
    (∀ tk p saved s, InvArena s.arena → (fracGeneralPath tk fuel p saved s).sat (nodePost s)) ∧
    (∀ tk s, InvArena s.arena → (parseSingleArgFunction tk fuel s).sat (nodePost s)) ∧
    (∀ tk s, InvArena s.arena → (parseOperatorName tk fuel s).sat (nodePost s)) ∧
    (∀ tk s, InvArena s.arena → (parseArgList tk fuel s).sat (listPost s)) ∧
    (∀ tk args s, InvArena s.arena → (∀ a ∈ args, a < s.arena.length) →
        (argListLoop tk fuel args s).sat (listPost s)) := by
  intro fuel
  induction fuel with
  | zero =>
    exact ⟨fun _ _ _ _ => sat_oof, fun _ _ _ _ _ _ => sat_oof, fun _ _ _ => sat_oof,
      fun _ _ _ => sat_oof, fun _ _ _ => sat_oof, fun _ _ _ => sat_oof,
      fun _ _ _ => sat_oof, fun _ _ _ _ _ => sat_oof, fun _ _ _ => sat_oof,
      fun _ _ _ => sat_oof, fun _ _ _ => sat_oof, fun _ _ _ _ _ => sat_oof⟩
  | succ f ih =>
    obtain ⟨ihE, ihL, ihP, ihC, ihB, ihLR, ihF, ihG, ihS, ihO, ihAL, ihALL⟩ := ih
    refine ⟨?_, ?_, ?_, ?_, ?_, ?_, ?_, ?_, ?_, ?_, ?_, ?_⟩
    -- parseExpression
    · intro tk minBP s hInv
      rw [parseExpression]
      refine sat_bind (ihP tk s hInv) fun ls s1 h1 => ?_
      exact sat_imp (ihL tk minBP ls s1 h1.1 h1.2.2) fun n s2 h2 => nodePost_trans h1 h2
    -- exprLoop
    · intro tk minBP ls0 s hInv hls
      rw [exprLoop]
      refine sat_bind (peek_sat tk s) fun t s1 h1 => ?_
      subst h1
      refine sat_bind (postfixStep_sat hInv hls) fun br s2 h2 => ?_
      obtain ⟨h2a, h2b, h2c⟩ := h2
      by_cases hbr : br.1 = true
      · rw [if_pos hbr]
        exact sat_ok ⟨h2a, h2b, h2c⟩
      · rw [if_neg hbr]
        dsimp only
        cases hIO : INFIX_OPS t.type with
        | some v =>
          obtain ⟨lbp, rbp, opk⟩ := v
          dsimp only
          by_cases hb1 : lbp < minBP
          · rw [if_pos hb1]
            exact sat_ok ⟨h2a, h2b, h2c⟩
          · rw [if_neg hb1]
            refine sat_bind (advance_sat tk s2) fun op s3 h3 => ?_
            have e3 : s3.arena.length = s2.arena.length := by rw [h3]
            refine sat_bind (ihE tk rbp s3 (h3 ▸ h2a)) fun rhs s4 h4 => ?_
            obtain ⟨h4a, h4b, h4c⟩ := h4
            refine sat_bind (addBinaryOp_post h4a (by omega) h4c) fun ls2 s5 h5 => ?_
            obtain ⟨h5a, h5b, h5c⟩ := h5
            refine sat_imp (ihL tk minBP ls2 s5 h5a h5c) fun n s6 h6 => ?_
            obtain ⟨h6a, h6b, h6c⟩ := h6
            exact ⟨h6a, by omega, h6c⟩
        | none =>
          dsimp only
          by_cases hcmd : t.type = .Command ∧ (t.lexeme = "cdot" ∨ t.lexeme = "times" ∨ t.lexeme = "div")
          · rw [if_pos hcmd]
            by_cases hb5 : 5 < minBP
            · rw [if_pos hb5]
              exact sat_ok ⟨h2a, h2b, h2c⟩
            · rw [if_neg hb5]
              refine sat_bind (advance_sat tk s2) fun tAdv s3 h3 => ?_
              have e3 : s3.arena.length = s2.arena.length := by rw [h3]
              refine sat_bind (ihE tk 6 s3 (h3 ▸ h2a)) fun rhs s4 h4 => ?_
              obtain ⟨h4a, h4b, h4c⟩ := h4
              refine sat_bind (addBinaryOp_post h4a (by omega) h4c) fun ls2 s5 h5 => ?_
              obtain ⟨h5a, h5b, h5c⟩ := h5
              refine sat_imp (ihL tk minBP ls2 s5 h5a h5c) fun n s6 h6 => ?_
              obtain ⟨h6a, h6b, h6c⟩ := h6
              exact ⟨h6a, by omega, h6c⟩
          · rw [if_neg hcmd]
            refine sat_bind (canImplicitMultiply_sat tk s2) fun b s3 h3 => ?_
            subst h3
            by_cases hbb : b = true
            · rw [if_pos hbb]
              by_cases hb5 : 5 < minBP
              · rw [if_pos hb5]
                exact sat_ok ⟨h2a, h2b, h2c⟩
              · rw [if_neg hb5]
                refine sat_bind (ihE tk 6 s3 h2a) fun rhs s4 h4 => ?_
                obtain ⟨h4a, h4b, h4c⟩ := h4
                refine sat_bind (peek_sat tk s4) fun tAfter s5 h5 => ?_
                subst h5
                refine sat_bind (addBinaryOp_post h4a (by omega) h4c) fun ls2 s6 h6 => ?_
                obtain ⟨h6a, h6b, h6c⟩ := h6
                refine sat_imp (ihL tk minBP ls2 s6 h6a h6c) fun n s7 h7 => ?_
                obtain ⟨h7a, h7b, h7c⟩ := h7
                exact ⟨h7a, by omega, h7c⟩
            · rw [if_neg hbb]
              exact sat_ok ⟨h2a, h2b, h2c⟩
    -- parsePrefix
    · intro tk s hInv
      rw [parsePrefix]
      refine sat_bind (peek_sat tk s) fun t s1 h1 => ?_
      subst h1
      by_cases hN : t.type = .Number
      · rw [if_pos hN]
        exact parseNumber_post hInv
      · rw [if_neg hN]
        by_cases hI : t.type = .Identifier
        · rw [if_pos hI]
          refine sat_bind (advance_sat tk s1) fun t2 s2 h2 => ?_
          have e2 : s2.arena.length = s1.arena.length := by rw [h2]
          refine sat_imp (addIdentifier_post (h2 ▸ hInv)) fun n s3 h3 => ?_
          obtain ⟨h3a, h3b, h3c⟩ := h3
          exact ⟨h3a, by omega, h3c⟩
        · rw [if_neg hI]
          by_cases hM : t.type = .Minus
          · rw [if_pos hM]
            refine sat_bind (advance_sat tk s1) fun t2 s2 h2 => ?_
            have e2 : s2.arena.length = s1.arena.length := by rw [h2]
            refine sat_bind (ihE tk PREFIX_UNARY_RBP s2 (h2 ▸ hInv)) fun inner s3 h3 => ?_
            obtain ⟨h3a, h3b, h3c⟩ := h3
            refine sat_imp (addUnaryOp_post h3a h3c) fun n s4 h4 => ?_
            obtain ⟨h4a, h4b, h4c⟩ := h4
            exact ⟨h4a, by omega, h4c⟩
          · rw [if_neg hM]
            by_cases hL : t.type = .LParenthesis
            · rw [if_pos hL]
              refine sat_bind (advance_sat tk s1) fun _ s2 h2 => ?_
              have e2 : s2.arena.length = s1.arena.length := by rw [h2]
              refine sat_bind (ihE tk 0 s2 (h2 ▸ hInv)) fun inner s3 h3 => ?_
              obtain ⟨h3a, h3b, h3c⟩ := h3
              refine sat_bind (expect_sat tk .RParenthesis s3) fun _ s4 h4 => ?_
              have e4 : s4.arena.length = s3.arena.length := by rw [h4]
              exact sat_ok ⟨h4 ▸ h3a, by omega, by omega⟩
            · rw [if_neg hL]
              by_cases hR : t.type = .RBrace
              · rw [if_pos hR]
                exact ihB tk s1 hInv
              · rw [if_neg hR]
                by_cases hC : t.type = .Command
                · rw [if_pos hC]
                  exact ihC tk s1 hInv
                · rw [if_neg hC]
                  exact sat_err
    -- parseCommand
    · intro tk s hInv
      rw [parseCommand]
      refine sat_bind (peek_sat tk s) fun t s1 h1 => ?_
      subst h1
      dsimp only
      cases hCM : CONSTANT_MAP t.lexeme with
      | some k =>
        refine sat_bind (advance_sat tk s1) fun t2 s2 h2 => ?_
        have e2 : s2.arena.length = s1.arena.length := by rw [h2]
        refine sat_imp (addConstant_post (h2 ▸ hInv)) fun n s3 h3 => ?_
        obtain ⟨h3a, h3b, h3c⟩ := h3
        exact ⟨h3a, by omega, h3c⟩
      | none =>
        dsimp only
        cases hFM : FUNCTION_KIND_MAP t.lexeme with
        | some fk =>
          exact ihS tk s1 hInv
        | none =>
          dsimp only
          by_cases hop : t.lexeme = "operatorname"
          · rw [if_pos hop]
            exact ihO tk s1 hInv
          · rw [if_neg hop]
            by_cases hfr : t.lexeme = "frac"
            · rw [if_pos hfr]
              exact ihF tk s1 hInv
            · rw [if_neg hfr]
              by_cases hsq : t.lexeme = "sqrt"
              · rw [if_pos hsq]
                refine sat_bind (advance_sat tk s1) fun t2 s2 h2 => ?_
                have e2 : s2.arena.length = s1.arena.length := by rw [h2]
                refine sat_bind (ihB tk s2 (h2 ▸ hInv)) fun inner s3 h3 => ?_
                obtain ⟨h3a, h3b, h3c⟩ := h3
                refine sat_bind (addRational_post h3a) fun half s4 h4 => ?_
                obtain ⟨h4a, h4b, h4c⟩ := h4
                refine sat_imp (addBinaryOp_post h4a (by omega) h4c) fun n s5 h5 => ?_
                obtain ⟨h5a, h5b, h5c⟩ := h5
                exact ⟨h5a, by omega, h5c⟩
              · rw [if_neg hsq]
                by_cases hlf : t.lexeme = "left"
                · rw [if_pos hlf]
                  exact ihLR tk s1 hInv
                · rw [if_neg hlf]
                  exact sat_err
    -- parseBraceGroup
    · intro tk s hInv
      rw [parseBraceGroup]
      refine sat_bind (expect_sat tk .LBrace s) fun _ s1 h1 => ?_
      have e1 : s1.arena.length = s.arena.length := by rw [h1]
      refine sat_bind (ihE tk 0 s1 (h1 ▸ hInv)) fun inner s2 h2 => ?_
      refine sat_bind (expect_sat tk .RBrace s2) fun _ s3 h3 => ?_
      have e3 : s3.arena.length = s2.arena.length := by rw [h3]
      have h2a : InvArena s2.arena := h2.1
      have h2b : s1.arena.length ≤ s2.arena.length := h2.2.1
      have h2c : inner < s2.arena.length := h2.2.2
      exact sat_ok ⟨h3 ▸ h2a, by omega, by omega⟩
    -- parseLeftRight
    · intro tk s hInv
      rw [parseLeftRight]
      refine sat_bind (advance_sat tk s) fun _ s1 h1 => ?_
      have e1 : s1.arena.length = s.arena.length := by rw [h1]
      refine sat_bind (expect_sat tk .LParenthesis s1) fun _ s2 h2 => ?_
      have e2 : s2.arena.length = s1.arena.length := by rw [h2]
      have hI2 : InvArena s2.arena := by rw [h2, h1]; exact hInv
      refine sat_bind (ihE tk 0 s2 hI2) fun inner s3 h3 => ?_
      obtain ⟨h3a, h3b, h3c⟩ := h3
      refine sat_bind (peek_sat tk s3) fun t s4 h4 => ?_
      subst h4
      by_cases hr : t.type = .Command ∧ t.lexeme = "right"
      · rw [if_neg (not_not_intro hr)]
        refine sat_bind (advance_sat tk s4) fun _ s5 h5 => ?_
        have e5 : s5.arena.length = s4.arena.length := by rw [h5]
        refine sat_bind (expect_sat tk .RParenthesis s5) fun _ s6 h6 => ?_
        have e6 : s6.arena.length = s5.arena.length := by rw [h6]
        refine sat_ok ⟨by rw [h6, h5]; exact h3a, by omega, by omega⟩
      · rw [if_pos hr]
        exact sat_err
    -- parseFraction
    · intro tk s hInv
      rw [parseFraction]
      refine sat_bind (advance_sat tk s) fun tFrac s1 h1 => ?_
      dsimp only
      refine sat_bind (peek_sat tk s1) fun t1 s2 h2 => ?_
      subst h2
      have hA2 : s2.arena = s.arena := h1
      have hGen : ∀ sx : PState, sx.arena = s.arena →
          (fracGeneralPath tk f tFrac.pos s2.pos sx).sat (nodePost s) := by
        intro sx hx
        refine sat_imp (ihG tk tFrac.pos s2.pos sx (by rw [hx]; exact hInv)) fun n sr hr => ?_
        have e : sx.arena.length = s.arena.length := by rw [hx]
        have := hr.2.1
        exact ⟨hr.1, by omega, hr.2.2⟩
      by_cases hLB1 : t1.type = .LBrace
      · rw [if_pos hLB1]
        refine sat_bind (advance_sat tk s2) fun _ s3 h3 => ?_
        refine sat_bind (peek_sat tk s3) fun tSgnN s4 h4 => ?_
        subst h4
        have hA4 : s4.arena = s.arena := by rw [h3, hA2]
        refine sat_bind (skipMinus_sat tk _ s4) fun _ s5 h5 => ?_
        refine sat_bind (peek_sat tk s5) fun t2 s6 h6 => ?_
        subst h6
        have hA6 : s6.arena = s.arena := by rw [h5, hA4]
        by_cases hNum1 : t2.type = .Number ∧ t2.isInt = true
        · rw [if_pos hNum1]
          refine sat_bind (advance_sat tk s6) fun t3 s7 h7 => ?_
          have hA7 : s7.arena = s.arena := by rw [h7, hA6]
          cases hn3 : t3.number with
          | none => exact sat_crash
          | some n3 =>
            obtain ⟨nv3, ni3⟩ := n3
            cases nv3 with
            | floatVal r => exact sat_crash
            | intVal nv =>
              dsimp only
              refine sat_bind (peek_sat tk s7) fun t4 s8 h8 => ?_
              subst h8
              have hA8 : s8.arena = s.arena := hA7
              by_cases hRB1 : t4.type = .RBrace
              · rw [if_pos hRB1]
                refine sat_bind (advance_sat tk s8) fun _ s9 h9 => ?_
                refine sat_bind (peek_sat tk s9) fun t5 s10 h10 => ?_
                subst h10
                have hA10 : s10.arena = s.arena := by rw [h9, hA8]
                by_cases hLB2 : t5.type = .LBrace
                · rw [if_pos hLB2]
                  refine sat_bind (advance_sat tk s10) fun _ s11 h11 => ?_
                  refine sat_bind (peek_sat tk s11) fun tSgnD s12 h12 => ?_
                  subst h12
                  have hA12 : s12.arena = s.arena := by rw [h11, hA10]
                  refine sat_bind (skipMinus_sat tk _ s12) fun _ s13 h13 => ?_
                  refine sat_bind (peek_sat tk s13) fun t6 s14 h14 => ?_
                  subst h14
                  have hA14 : s14.arena = s.arena := by rw [h13, hA12]
                  by_cases hNum2 : t6.type = .Number ∧ t6.isInt = true
                  · rw [if_pos hNum2]
                    refine sat_bind (advance_sat tk s14) fun t7 s15 h15 => ?_
                    have hA15 : s15.arena = s.arena := by rw [h15, hA14]
                    cases hn7 : t7.number with
                    | none => exact sat_crash
                    | some n7 =>
                      obtain ⟨nv7, ni7⟩ := n7
                      cases nv7 with
                      | floatVal r => exact sat_crash
                      | intVal dv =>
                        dsimp only
                        refine sat_bind (peek_sat tk s15) fun t8 s16 h16 => ?_
                        subst h16
                        have hA16 : s16.arena = s.arena := hA15
                        by_cases hRB2 : t8.type = .RBrace
                        · rw [if_pos hRB2]
                          refine sat_bind (advance_sat tk s16) fun _ s17 h17 => ?_
                          have hA17 : s17.arena = s.arena := by rw [h17, hA16]
                          have e17 : s17.arena.length = s.arena.length := by rw [hA17]
                          refine sat_imp (addRational_post (by rw [hA17]; exact hInv))
                            fun n s18 h18 => ?_
                          obtain ⟨h18a, h18b, h18c⟩ := h18
                          exact ⟨h18a, by omega, h18c⟩
                        · rw [if_neg hRB2]
                          exact hGen s16 hA16
                  · rw [if_neg hNum2]
                    exact hGen s14 hA14
                · rw [if_neg hLB2]
                  exact hGen s10 hA10
              · rw [if_neg hRB1]
                exact hGen s8 hA8
        · rw [if_neg hNum1]
          exact hGen s6 hA6
      · rw [if_neg hLB1]
        exact hGen s2 hA2
    -- fracGeneralPath
    · intro tk p saved s hInv
      rw [fracGeneralPath]
      refine sat_bind (ihB tk { s with pos := saved } hInv) fun numerator s1 h1 => ?_
      refine sat_bind (ihB tk s1 h1.1) fun denominator s2 h2 => ?_
      have h1b : s.arena.length ≤ s1.arena.length := h1.2.1
      have h1c : numerator < s1.arena.length := h1.2.2
      have h2b : s1.arena.length ≤ s2.arena.length := h2.2.1
      refine sat_imp (addBinaryOp_post h2.1 (by omega) h2.2.2) fun n s3 h3 => ?_
      have h3b : s2.arena.length ≤ s3.arena.length := h3.2.1
      exact ⟨h3.1, by omega, h3.2.2⟩
    -- parseSingleArgFunction
    · intro tk s hInv
      rw [parseSingleArgFunction]
      refine sat_bind (advance_sat tk s) fun t s1 h1 => ?_
      have e1 : s1.arena.length = s.arena.length := by rw [h1]
      have hI1 : InvArena s1.arena := h1 ▸ hInv
      cases hFM : FUNCTION_KIND_MAP t.lexeme with
      | none =>
        exact sat_crash
      | some fk =>
        dsimp only
        refine sat_bind (peek_sat tk s1) fun tn s2 h2 => ?_
        subst h2
        have hTail : ∀ (r : Res Nat), r.sat (nodePost s2) →
            (r.bind fun arg s => addCall fk [arg] t.pos s).sat (nodePost s) := by
          intro r hr
          refine sat_bind hr fun arg s3 h3 => ?_
          obtain ⟨h3a, h3b, h3c⟩ := h3
          refine sat_imp (addCall_post h3a ?_) fun n s4 h4 => ?_
          · intro a ha
            rw [List.mem_singleton] at ha
            subst ha
            exact h3c
          · obtain ⟨h4a, h4b, h4c⟩ := h4
            exact ⟨h4a, by omega, h4c⟩
        by_cases hLB : tn.type = .LBrace
        · rw [if_pos hLB]
          exact hTail _ (ihB tk s2 hI1)
        · rw [if_neg hLB]
          by_cases hLP : tn.type = .LParenthesis
          · rw [if_pos hLP]
            refine hTail _ ?_
            refine sat_bind (advance_sat tk s2) fun _ s3 h3 => ?_
            have e3 : s3.arena.length = s2.arena.length := by rw [h3]
            refine sat_bind (ihE tk 0 s3 (h3 ▸ hI1)) fun arg s4 h4 => ?_
            obtain ⟨h4a, h4b, h4c⟩ := h4
            refine sat_bind (expect_sat tk .RParenthesis s4) fun _ s5 h5 => ?_
            have e5 : s5.arena.length = s4.arena.length := by rw [h5]
            exact sat_ok ⟨h5 ▸ h4a, by omega, by omega⟩
          · rw [if_neg hLP]
            exact hTail _ (ihE tk PREFIX_UNARY_RBP s2 hI1)
    -- parseOperatorName
    · intro tk s hInv
      rw [parseOperatorName]
      refine sat_bind (advance_sat tk s) fun t s1 h1 => ?_
      have e1 : s1.arena.length = s.arena.length := by rw [h1]
      dsimp only
      refine sat_bind (expect_sat tk .LBrace s1) fun _ s2 h2 => ?_
      have e2 : s2.arena.length = s1.arena.length := by rw [h2]
      refine sat_bind (expect_sat tk .Identifier s2) fun name s3 h3 => ?_
      have e3 : s3.arena.length = s2.arena.length := by rw [h3]
      refine sat_bind (expect_sat tk .RBrace s3) fun _ s4 h4 => ?_
      have e4 : s4.arena.length = s3.arena.length := by rw [h4]
      have hI4 : InvArena s4.arena := by rw [h4, h3, h2, h1]; exact hInv
      cases hON : OPERATOR_NAME_MAP name.lexeme with
      | none =>
        exact sat_err
      | some k =>
        dsimp only
        refine sat_bind (expect_sat tk .LParenthesis s4) fun _ s5 h5 => ?_
        have e5 : s5.arena.length = s4.arena.length := by rw [h5]
        refine sat_bind (ihAL tk s5 (h5 ▸ hI4)) fun args s6 h6 => ?_
        obtain ⟨h6a, h6b, h6c⟩ := h6
        refine sat_bind (expect_sat tk .RParenthesis s6) fun _ s7 h7 => ?_
        have e7 : s7.arena.length = s6.arena.length := by rw [h7]
        have hI7 : InvArena s7.arena := h7 ▸ h6a
        refine sat_imp (addCall_post hI7 ?_) fun n s8 h8 => ?_
        · intro a ha
          have := h6c a ha
          omega
        · obtain ⟨h8a, h8b, h8c⟩ := h8
          exact ⟨h8a, by omega, h8c⟩
    -- parseArgList
    · intro tk s hInv
      rw [parseArgList]
      refine sat_bind (ihE tk 0 s hInv) fun a s1 h1 => ?_
      refine sat_imp (ihALL tk [a] s1 h1.1 ?_) fun as2 s2 h2 => ?_
      · intro x hx
        rw [List.mem_singleton] at hx
        subst hx
        exact h1.2.2
      · exact ⟨h2.1, h1.2.1.trans h2.2.1, h2.2.2⟩
    -- argListLoop
    · intro tk args s hInv hargs
      rw [argListLoop]
      refine sat_bind (peek_sat tk s) fun t s1 h1 => ?_
      subst h1
      by_cases hc : t.type = .Comma
      · rw [if_pos hc]
        refine sat_bind (advance_sat tk s1) fun _ s2 h2 => ?_
        have e2 : s2.arena.length = s1.arena.length := by rw [h2]
        refine sat_bind (ihE tk 0 s2 (h2 ▸ hInv)) fun a s3 h3 => ?_
        have h3b : s2.arena.length ≤ s3.arena.length := h3.2.1
        refine sat_imp (ihALL tk (args ++ [a]) s3 h3.1 ?_) fun as4 s4 h4 => ?_
        · intro x hx
          rcases List.mem_append.1 hx with hx | hx
          · have := hargs x hx
            omega
          · rw [List.mem_singleton] at hx
            subst hx
            exact h3.2.2
        · exact ⟨h4.1, by have := h4.2.1; omega, h4.2.2⟩
      · rw [if_neg hc]
        exact sat_ok ⟨hInv, le_refl _, hargs⟩

/-- C9: whenever `parse` returns (on ANY token sequence and fuel), every node
of the final arena references only strictly smaller arena indices through its
children (BinaryOp left/right, UnaryOp inner, Call args), so the arena is
cycle-free and post-order-compatible. -/
theorem parse_arena_children_strictly_smaller :
    ∀ (tk : List Token) (fuel : Nat) (b : Bool) (root : Nat) (s : PState),
      parse tk fuel = .ok (b, root) s →
      ∀ i node, s.arena.get? i = some node → ∀ c ∈ childIDs node, c < i := by
  intro tk fuel b root s h
  have hInv0 : InvArena (⟨0, []⟩ : PState).arena := by
    constructor
    · intro i node hi
      simp at hi
    · intro node hmem
      simp at hmem
  have hE := (parserInv fuel).1 tk 0 ⟨0, []⟩ hInv0
  have hsat : (parse tk fuel).sat fun _ s' => InvArena s'.arena := by
    unfold parse
    refine sat_bind hE fun root1 s1 h1 => ?_
    refine sat_bind (peek_sat tk s1) fun t s2 h2 => ?_
    subst h2
    exact sat_ok h1.1
  exact (hsat (b, root) s h).1

/-- Witness for C9 at a concrete input: parsing `x!` stores the Factorial
node at index 1 with the identifier child at index 0, and the theorem gives
`0 < 1` for that child. -/
theorem parse_arena_children_witness : (0 : Nat) < 1 :=
  parse_arena_children_strictly_smaller toksXBang 10 true 1
    ⟨2, [ASTNode.IdentifierNode "x" 0, ASTNode.UnaryOpNode .Factorial 0 1]⟩
    (by decide) 1 (ASTNode.UnaryOpNode .Factorial 0 1) (by decide) 0 (by decide)

/-- C3 (amended): every Rational node stored by any parser path satisfies
`gcd(|numerator|, |denominator|) = 1` — `addRational` always divides by the
gcd — but the denominator is NOT guaranteed positive (no sign
normalization; see the counterexample above). -/
theorem parse_rationals_gcd_reduced :
    ∀ (tk : List Token) (fuel : Nat) (b : Bool) (root : Nat) (s : PState),
      parse tk fuel = .ok (b, root) s →
      ∀ node ∈ s.arena, ∀ num den p, node = ASTNode.RationalNode num den p →
        Int.gcd num den = 1 := by
  intro tk fuel b root s h
  have hInv0 : InvArena (⟨0, []⟩ : PState).arena := by
    constructor
    · intro i node hi
      simp at hi
    · intro node hmem
      simp at hmem
  have hE := (parserInv fuel).1 tk 0 ⟨0, []⟩ hInv0
  have hsat : (parse tk fuel).sat fun _ s' => InvArena s'.arena := by
    unfold parse
    refine sat_bind hE fun root1 s1 h1 => ?_
    refine sat_bind (peek_sat tk s1) fun t s2 h2 => ?_
    subst h2
    exact sat_ok h1.1
  intro node hmem num den p hnode
  have := (hsat (b, root) s h).2 node hmem
  rw [hnode] at this
  exact this

/-- Witness for the amended C3 at a concrete input: the crafted `\frac` fast
path on 3/6 stores the reduced `Rational(1,2)`, and the theorem certifies its
gcd is 1. -/
theorem parse_rationals_gcd_reduced_witness : Int.gcd 1 2 = 1 :=
  parse_rationals_gcd_reduced toksFrac36 30 true 0 ⟨7, [ASTNode.RationalNode 1 2 0]⟩
    (by decide) (ASTNode.RationalNode 1 2 0) (by decide) 1 2 0 rfl

end MathCompiler
